import Mathlib

/-!
Verification of the page-classification engine of `pybackend`
(`src/services/analysis/page_classifier.py`, `src/services/analysis/text_analyzer.py`,
`src/services/analysis/result_type_config.py`).

Modelling conventions, shared by all definitions below:

* Python floats are modelled as exact real numbers (`ℝ`) where square roots occur
  (`statistics.stdev`), and the classifier itself is stated over an arbitrary
  `LinearOrderedField` since `classify_pages` receives the z-scores as an input
  (`stats['z_scores']`) and only compares and divides them.
* Python dict mutation is modelled positionally: `classify_pages` only ever rewrites the
  `classification` entry of pages, and every page object is identified by its index in
  `analyzed_pages` (the `analyzed_pages.index(page)` lookup in the source resolves to the
  page's own position, because previously processed pages already carry the new keys).
  Label updates are gathered into an association list from page index to new label and
  applied in one pass; within each phase of the source every page is written at most once,
  so this is equivalent to the sequential dict mutations.
* `re` word-boundary matching (`\b`, `\w`) is modelled over ASCII: a word character is an
  ASCII letter, digit or underscore, and `re.IGNORECASE` is modelled by lowercasing.
* The regex lexicon scan of `TextAnalyzer.find_unique_terms` is not itself under any claim;
  `analyze_document` below therefore takes each page's `uniqueTermsCount` (the size of the
  matched-term set) as part of the input page record.
-/

/-- One analyzed page record, as produced by `TextAnalyzer.analyze_page` and then mutated in
place by `PageClassifier.classify_pages`.  `α` is the number type of the z-score
(`ℝ` in the real pipeline).  The dict returned by `analyze_page` has no `zScore` /
`isOutlier` keys yet; they are initialised here with `0` / `false` and are overwritten by
step 1 of `classify_pages` before ever being read. -/
structure Page (α : Type) where
  page_number : Int
  text : String
  isRelevant : Bool
  uniqueTermsCount : Nat
  zScore : α
  isOutlier : Bool
  classification : String
  isOcr : Bool
deriving DecidableEq

/-- `ResultTypeConfig` dataclass from `result_type_config.py`:
`result_type` is `"single_page"` or `"multi_page"`, `multi_page_type` is
`Some "consolidated"` / `Some "standalone"` when `result_type = "multi_page"`. -/
structure ResultTypeConfig where
  result_type : String
  multi_page_type : Option String
deriving DecidableEq

/-- `PageClassifier.MIN_FINANCIAL_TERMS` (env default 7).  `TextAnalyzer` reads the same
environment variable. -/
def MIN_FINANCIAL_TERMS : Nat := 7

/-- Python `needle in hay` substring test on strings, via character lists. -/
def charsStartWith : List Char → List Char → Bool
  | [], _ => true
  | _ :: _, [] => false
  | a :: as, b :: bs => a = b && charsStartWith as bs

/-- Does `n` occur as a contiguous sublist of `h`? -/
def charsOccur (n : List Char) : List Char → Bool
  | [] => n.isEmpty
  | c :: cs => charsStartWith n (c :: cs) || charsOccur n cs

/-- Python `needle in hay` for strings. -/
def strOccurs (needle hay : String) : Bool :=
  charsOccur needle.toList hay.toList

/-- `re` word character over ASCII (`[A-Za-z0-9_]`). -/
def isWordChar (c : Char) : Bool := c.isAlphanum || c = '_'

/-- Lowercased character list of a string (models `re.IGNORECASE`). -/
def lcChars (s : String) : List Char := s.toList.map Char.toLower

/-- Does the word `w` (all lowercase letters) match at the head of `s`, with a word
boundary before it already established by the caller?  When `reqEnd` is true a word
boundary must also follow the match (`\bw\b`); when false the pattern continues with
`\w*\b`, which always succeeds. -/
def wordAt (w : List Char) (reqEnd : Bool) (s : List Char) : Bool :=
  charsStartWith w s &&
    (!reqEnd ||
      (match s.drop w.length with
       | [] => true
       | c :: _ => !isWordChar c))

/-- Scan `s` for a `\b`-anchored occurrence of `w`; `prevWord` records whether the
character before the current position is a word character (no boundary). -/
def wordSearchFrom (w : List Char) (reqEnd : Bool) : Bool → List Char → Bool
  | _, [] => false
  | prevWord, c :: rest =>
    (!prevWord && wordAt w reqEnd (c :: rest)) || wordSearchFrom w reqEnd (isWordChar c) rest

/-- Case-insensitive search for word `w` in the characters `cs`, with a leading word
boundary, and a trailing one when `reqEnd` (models `re.search(r'\bw\b', ..., re.IGNORECASE)`
for `reqEnd = true` and `re.search(r'\bw\w*\b', ...)` for `reqEnd = false`). -/
def hasWordChars (w : String) (reqEnd : Bool) (cs : List Char) : Bool :=
  wordSearchFrom (lcChars w) reqEnd false (cs.map Char.toLower)

/-- `hasWordChars` on a whole string. -/
def hasWord (w : String) (reqEnd : Bool) (text : String) : Bool :=
  hasWordChars w reqEnd text.toList

/-- Python `text.split('\n')` on character lists (keeps empty segments). -/
def splitOnNewline : List Char → List (List Char)
  | [] => [[]]
  | c :: cs =>
    if c = '\n' then [] :: splitOnNewline cs
    else
      match splitOnNewline cs with
      | [] => [[c]]
      | l :: ls => (c :: l) :: ls

/-- `re.search(CLASSIFICATION_TERMS['Standalone'], text, re.IGNORECASE)`:
pattern `\bStandalone\b`. -/
def hasStandalone (text : String) : Bool := hasWord "standalone" true text

/-- `re.search(CLASSIFICATION_TERMS['SEGMENT'], text, re.IGNORECASE)`:
pattern `\bSEGMENT\b`. -/
def hasSegment (text : String) : Bool := hasWord "segment" true text

/-- `re.search(CLASSIFICATION_TERMS['AnyConsolidated'], text, re.IGNORECASE)`:
pattern `\bConsolidat\w*\b`. -/
def hasAnyConsolidated (text : String) : Bool := hasWord "consolidat" false text

/-- The per-line `Consolidated` test: some line of `text` (split on newline) matches
`^(?!.*\bseparat\w*\b).*?\b(Consolidat\w*)\b.*$`, i.e. the line contains no word starting
with `separat` but does contain a word starting with `Consolidat` (case-insensitive). -/
def hasConsolidated (text : String) : Bool :=
  (splitOnNewline text.toList).any fun line =>
    !(hasWordChars "separat" false line) && hasWordChars "consolidat" false line

/-- `PageClassifier._analyze_text_content`: the keyword sub-classifier used in
`multi_page` mode. -/
def analyzeTextContent (text : String) : String :=
  if hasSegment text then
    if hasStandalone text then
      if hasConsolidated text then "Rare Case (Segment)"
      else if hasAnyConsolidated text then "Standalone (Segment, with fake Consolidated term)"
      else "Standalone (Segment)"
    else if hasConsolidated text then "Consolidated (Segment)"
    else "Segment"
  else if hasStandalone text then
    if hasConsolidated text then "Rare Case"
    else if hasAnyConsolidated text then "Standalone (probability of fake Conxxlidated term used)"
    else "Standalone"
  else if hasConsolidated text then "Consolidated"
  else "Classification Failed"

/-! ## The classifier (`PageClassifier.classify_pages`) -/

variable {α : Type} [LinearOrderedField α]

/-- `PageClassifier.ZSCORE_THRESHOLD` (env default 1.0). -/
def ZSCORE_THRESHOLD (α : Type) [LinearOrderedField α] : α := 1

/-- `PageClassifier.GAP_PERCENTAGE_THRESHOLD` (env default 30.0). -/
def GAP_PERCENTAGE_THRESHOLD (α : Type) [LinearOrderedField α] : α := 30

/-- Apply a batch of classification updates: page at index `n + k` receives the label the
association list holds for key `n + k`, if any.  This models the source's in-place dict
mutations of a phase of `classify_pages`, in which every page is written at most once. -/
def applyLabelsFrom (assoc : List (Nat × String)) : Nat → List (Page α) → List (Page α)
  | _, [] => []
  | n, p :: ps =>
    (match assoc.lookup n with
     | some c => { p with classification := c }
     | none => p) :: applyLabelsFrom assoc (n + 1) ps

/-- Apply labels to a page list, identifying pages by their list position. -/
def applyLabels (assoc : List (Nat × String)) (ps : List (Page α)) : List (Page α) :=
  applyLabelsFrom assoc 0 ps

/-- Step 1 of `classify_pages`: store each page's z-score, mark outliers
(`zScore > ZSCORE_THRESHOLD`), and reset every classification to
`"Not Relevant with zScore"`.  Positional: page `i` receives `stats['z_scores'][i]`. -/
def step1 (ps : List (Page α)) (zscores : List α) : List (Page α) :=
  List.zipWith
    (fun p z =>
      { p with zScore := z, isOutlier := decide (z > ZSCORE_THRESHOLD α),
               classification := "Not Relevant with zScore" })
    ps zscores

/-- Steps 2-3 of `classify_pages`: the outlier pages (paired with their index in
`analyzed_pages`), sorted by descending z-score.  `List.insertionSort` with the
non-strict relation is a stable sort, as Python's `list.sort` is. -/
def sortedOutliers (ps : List (Page α)) : List (Nat × Page α) :=
  (ps.enum.filter fun ip => ip.2.isOutlier).insertionSort
    fun a b => b.2.zScore ≤ a.2.zScore

/-- Step 4 of `classify_pages` (single_page, exactly one outlier): promote that page. -/
def classifySingleLone (ps : List (Page α)) (i : Nat) (p : Page α) : List (Page α) :=
  if p.uniqueTermsCount ≥ MIN_FINANCIAL_TERMS then applyLabels [(i, "Results Page")] ps
  else applyLabels [(i, "Relevant Financial Content")] ps

/-- Steps 5-6 of `classify_pages` (single_page, several outliers): gap percentage between
the two highest z-scores decides between a single candidate and deferred candidates. -/
def singlePageGap (ps : List (Page α)) (hz : List (Nat × Page α)) : List (Page α) :=
  match hz with
  | (i0, p0) :: (i1, p1) :: rest =>
    let gap_percentage := ((p0.zScore - p1.zScore) / p0.zScore) * 100
    if gap_percentage > GAP_PERCENTAGE_THRESHOLD α then
      applyLabels
        ((i0, if p0.uniqueTermsCount ≥ MIN_FINANCIAL_TERMS then "Results Page"
              else "Relevant Financial Content") ::
          ((i1, p1) :: rest).map fun ip => (ip.1, "Relevant Financial Content")) ps
    else
      applyLabels
        (hz.map fun ip =>
          (ip.1, if ip.2.uniqueTermsCount ≥ MIN_FINANCIAL_TERMS then "More Results Pages"
                 else "Relevant Financial Content")) ps
  | _ => ps

/-- The label the multi_page branch assigns to an outlier page that passes the
term-count test: the keyword sub-classification, promoted to `"Results Page"` when it
contains the configured variant keyword. -/
def multiPageLabel (cfg : ResultTypeConfig) (p : Page α) : String :=
  let content_type := analyzeTextContent p.text
  if cfg.multi_page_type = some "consolidated" then
    if strOccurs "Consolidated" content_type then "Results Page" else content_type
  else
    if strOccurs "Standalone" content_type then "Results Page" else content_type

/-- The multi_page branch of `classify_pages`. -/
def multiPagePhase (cfg : ResultTypeConfig) (ps : List (Page α)) (hz : List (Nat × Page α)) :
    List (Page α) :=
  applyLabels
    (hz.map fun ip =>
      (ip.1, if ip.2.uniqueTermsCount ≥ MIN_FINANCIAL_TERMS then multiPageLabel cfg ip.2
             else "Relevant Financial Content")) ps

/-- The layout-dependent middle phase of `classify_pages` (single_page with several
outliers, multi_page, or neither). -/
def branchPhase (cfg : ResultTypeConfig) (ps : List (Page α)) (hz : List (Nat × Page α)) :
    List (Page α) :=
  if cfg.result_type = "single_page" then singlePageGap ps hz
  else if cfg.result_type = "multi_page" then multiPagePhase cfg ps hz
  else ps

/-- The special-case block of `classify_pages`: with exactly two outlier pages neither of
which is a `"Results Page"`, a Standalone/Consolidated-bearing label on one of them
promotes the other to `"Results Page"` when the other has at least 10 unique terms.
`idxs` are the indices of the sorted outlier pages; classifications are read from the
current state `ps`. -/
def reconcileTwoOutliers (ps : List (Page α)) (idxs : List Nat) : List (Page α) :=
  match idxs with
  | [i1, i2] =>
    match ps[i1]?, ps[i2]? with
    | some page1, some page2 =>
      if page1.classification = "Results Page" ∨ page2.classification = "Results Page" then
        ps
      else if (strOccurs "Consolidated" page1.classification ∧ page2.uniqueTermsCount ≥ 10) ∨
              (strOccurs "Standalone" page1.classification ∧ page2.uniqueTermsCount ≥ 10) then
        applyLabels [(i2, "Results Page")] ps
      else if (strOccurs "Consolidated" page2.classification ∧ page1.uniqueTermsCount ≥ 10) ∨
              (strOccurs "Standalone" page2.classification ∧ page1.uniqueTermsCount ≥ 10) then
        applyLabels [(i1, "Results Page")] ps
      else ps
    | _, _ => ps
  | _ => ps

/-- The pages currently labelled `"Results Page"`, paired with their index and sorted by
descending z-score (the duplicate-suppression phase recomputes this from scratch). -/
def resultPagesSorted (ps : List (Page α)) : List (Nat × Page α) :=
  (ps.enum.filter fun ip => ip.2.classification == "Results Page").insertionSort
    fun a b => b.2.zScore ≤ a.2.zScore

/-- Duplicate suppression: with more than one `"Results Page"`, keep only the top page by
z-score — and only when it has at least 14 unique terms and the relative z-score gap to
the runner-up is at least 30% — relabelling every other (or, failing the test, every)
result page `"Duplicate Results Page"`. -/
def suppressDuplicatesAux (ps : List (Page α)) : List (Nat × Page α) → List (Page α)
  | (i0, p0) :: (i1, p1) :: rest =>
    let result_pages := (i0, p0) :: (i1, p1) :: rest
    let top_has_min_terms := p0.uniqueTermsCount ≥ 14
    let sufficient_gap :=
      result_pages.length ≥ 2 ∧ p1.zScore ≠ 0 ∧
        ((p0.zScore - p1.zScore) / |p1.zScore|) * 100 ≥ 30
    if ¬(top_has_min_terms ∧ sufficient_gap) then
      applyLabels (result_pages.map fun ip => (ip.1, "Duplicate Results Page")) ps
    else
      applyLabels (((i1, p1) :: rest).map fun ip => (ip.1, "Duplicate Results Page")) ps
  | _ => ps

/-- The duplicate-suppression phase applied to the freshly collected, sorted result
pages. -/
def suppressDuplicates (ps : List (Page α)) : List (Page α) :=
  suppressDuplicatesAux ps (resultPagesSorted ps)

/-- `PageClassifier.classify_pages`.  `zscores` is `stats['z_scores']`; the caller
guarantees it has the same length as `analyzed_pages` (the source would raise otherwise). -/
def classify_pages (analyzed_pages : List (Page α)) (zscores : List α)
    (cfg : ResultTypeConfig) : List (Page α) :=
  let ps := step1 analyzed_pages zscores
  let hz := sortedOutliers ps
  if hz.isEmpty then ps
  else if cfg.result_type = "single_page" ∧ hz.length = 1 then
    match hz with
    | (i, p) :: _ => classifySingleLone ps i p
    | [] => ps
  else suppressDuplicates (reconcileTwoOutliers (branchPhase cfg ps hz) (hz.map Prod.fst))

/-- Number of pages labelled `"Results Page"`. -/
def countRP (ps : List (Page α)) : Nat :=
  ps.countP fun p => p.classification == "Results Page"

/-! ## Statistics (`PageClassifier.calculate_statistics`) and the engine
(`TextAnalyzer.analyze_document`), over the reals -/

/-- The result dict of `calculate_statistics`. -/
structure DocumentStats where
  mean : ℝ
  std_dev : ℝ
  z_scores : List ℝ

/-- `statistics.mean` (exact value). -/
noncomputable def pyMean (l : List ℝ) : ℝ := l.sum / l.length

/-- The sample variance used by `statistics.stdev`: `Σ (x - mean)² / (n - 1)`. -/
noncomputable def sampleVariance (l : List ℝ) : ℝ :=
  (l.map fun x => (x - pyMean l) ^ 2).sum / ((l.length : ℝ) - 1)

/-- `PageClassifier.calculate_statistics`: mean, sample standard deviation (0 for fewer
than two counts) and guarded z-scores.  `Real.sqrt` makes this noncomputable; every use in
the claims is settled by explicit real-number reasoning. -/
noncomputable def calculate_statistics (unique_terms_counts : List ℝ) : DocumentStats :=
  if unique_terms_counts = [] then ⟨0, 0, []⟩
  else
    let mean := pyMean unique_terms_counts
    let std_dev :=
      if 1 < unique_terms_counts.length then Real.sqrt (sampleVariance unique_terms_counts)
      else 0
    ⟨mean, std_dev,
      unique_terms_counts.map fun count => if std_dev > 0 then (count - mean) / std_dev else 0⟩

/-- One raw input page of `analyze_document`, together with the size of its matched
financial-term set (`len(find_unique_terms(text))`, the regex lexicon scan being out of
scope of the claims). -/
structure InputPage where
  page_number : Int
  text : String
  isOcr : Bool
  uniqueTermsCount : Nat
deriving DecidableEq

/-- `TextAnalyzer.analyze_page`: build the analyzed-page record (classification starts as
`"Unknown"`; `zScore`/`isOutlier` do not exist yet in the dict and are initialised inertly). -/
def analyze_page (p : InputPage) : Page ℝ :=
  { page_number := p.page_number, text := p.text.trim,
    isRelevant := decide (p.uniqueTermsCount ≥ MIN_FINANCIAL_TERMS),
    uniqueTermsCount := p.uniqueTermsCount, zScore := 0, isOutlier := false,
    classification := "Unknown", isOcr := p.isOcr }

/-- The result dict of `analyze_document` (`needs_ocr` is the re-extraction flag). -/
structure AnalysisResult where
  needs_ocr : Bool
  message : String
  pages : List (Page ℝ)

/-- `TextAnalyzer.analyze_document`: analyze pages, gate on the minimum-terms threshold,
compute statistics, classify, and gate on the classified result pages. -/
noncomputable def analyze_document (pages : List InputPage) (cfg : ResultTypeConfig) :
    AnalysisResult :=
  let analyzed_pages := pages.map analyze_page
  let unique_terms_counts : List ℝ := pages.map fun p => (p.uniqueTermsCount : ℝ)
  if ¬ analyzed_pages.any (fun p => decide (p.uniqueTermsCount ≥ MIN_FINANCIAL_TERMS)) then
    ⟨true, "PDF needs to be processed through OCR API to get data", analyzed_pages⟩
  else
    let stats := calculate_statistics unique_terms_counts
    let classified := classify_pages analyzed_pages stats.z_scores cfg
    let results_pages := classified.filter fun p => p.classification == "Results Page"
    if results_pages.isEmpty then
      ⟨true, "No Results Page found, needs OCR processing", classified⟩
    else if ¬ results_pages.any (fun p => decide (p.uniqueTermsCount ≥ 10)) then
      ⟨true, "Results Page doesn\x27t have enough unique terms, needs OCR processing", classified⟩
    else ⟨false, "PDF processed successfully", classified⟩

/-! ## Layout-hint resolution (`ResultTypeConfig.from_stock_data`) -/

/-- A parsed JSON value, as produced by `json.loads`. -/
inductive PyJson where
  | null
  | bool (b : Bool)
  | num (q : ℚ)
  | str (s : String)
  | arr (xs : List PyJson)
  | obj (kvs : List (String × PyJson))

/-- `dict.get` on a parsed JSON object. -/
def objGet (kvs : List (String × PyJson)) (k : String) : Option PyJson :=
  kvs.lookup k

/-- A JSON value is Python-falsy when it is `None`, `False`, `0`, `""`, `[]` or `{}`. -/
def PyJson.falsy : PyJson → Bool
  | .null => true
  | .bool b => !b
  | .num q => q = 0
  | .str s => s = ""
  | .arr xs => xs.isEmpty
  | .obj kvs => kvs.isEmpty

/-- The `multi_page` sub-type resolution: `page_type.lower() if page_type else
"consolidated"` applied to `result_config.get('pageType', 'Consolidated')`.  A truthy
non-string value has no `.lower()` — `AttributeError`, caught and re-raised as
`ValueError("Failed to parse stock data")`. -/
def resolvePageType (v : PyJson) : Except String (Option String) :=
  if v.falsy then .ok (some "consolidated")
  else
    match v with
    | .str s => .ok (some s.toLower)
    | _ => .error "Failed to parse stock data"

/-- The body of the `try` block of `from_stock_data` applied to the parsed JSON value:
field lookups with defaults, the `type` mapping, and the sub-type resolution.  Attribute
and hashability errors inside the `try` surface as
`ValueError("Failed to parse stock data")`. -/
def configOfJson (data : PyJson) : Except String ResultTypeConfig :=
  match data with
  | .obj kvs =>
    match (objGet kvs "resultPageConfig").getD (.obj []) with
    | .obj rkvs =>
      match (objGet rkvs "type").getD (.str "Single") with
      | .str s =>
        if s = "Multi" then
          match resolvePageType ((objGet rkvs "pageType").getD (.str "Consolidated")) with
          | .ok t => .ok ⟨"multi_page", t⟩
          | .error e => .error e
        else .ok ⟨"single_page", none⟩
      | .obj _ => .error "Failed to parse stock data"
      | .arr _ => .error "Failed to parse stock data"
      | _ => .ok ⟨"single_page", none⟩
    | _ => .error "Failed to parse stock data"
  | _ => .error "Failed to parse stock data"

/-- `ResultTypeConfig.from_stock_data`.  The `json.loads` call of the Python standard
library is abstracted as the argument `loads`: `Except.error` models a raised
`json.JSONDecodeError` (re-raised as `ValueError("Invalid stock data format")`),
`Except.ok` a successfully parsed value.  An empty `stock_data` string is falsy and short
circuits to the default configuration before any parsing. -/
def from_stock_data (stock_data : String) (loads : String → Except Unit PyJson) :
    Except String ResultTypeConfig :=
  if stock_data = "" then .ok ⟨"single_page", none⟩
  else
    match loads stock_data with
    | .error _ => .error "Invalid stock data format"
    | .ok data => configOfJson data

/-! ## C3: the keyword sub-classifier mapping -/

/-- C3 counterexample: the claim says the sub-classifier maps the marker combination
(Standalone; line-filtered Consolidated; Segment) to exactly eight labels, with
"standalone only" giving `Standalone`.  On a text whose only `Consolidated` occurrence sits
on a line containing `separate`, the markers are standalone-only, yet the code returns the
distinct fake-Consolidated label instead of `Standalone`. -/
theorem c3_counterexample :
    hasStandalone "Standalone separate Consolidated" = true ∧
    hasConsolidated "Standalone separate Consolidated" = false ∧
    hasSegment "Standalone separate Consolidated" = false ∧
    analyzeTextContent "Standalone separate Consolidated" ≠ "Standalone" := by
  decide

/-- C3 (amended): the sub-classifier maps the marker combination (Standalone;
Consolidated excluding lines containing a `separat`-word; Segment) to the eight claimed
labels, except that when Standalone is detected without line-filtered Consolidated but
the text still contains a `Consolidat`-word somewhere ("fake" occurrence), the two extra
fake-Consolidated labels are produced instead of `Standalone (Segment)` / `Standalone`. -/
theorem c3_keyword_mapping (text : String) :
    (hasSegment text = true → hasStandalone text = true → hasConsolidated text = true →
      analyzeTextContent text = "Rare Case (Segment)") ∧
    (hasSegment text = true → hasStandalone text = true → hasConsolidated text = false →
      hasAnyConsolidated text = true →
      analyzeTextContent text = "Standalone (Segment, with fake Consolidated term)") ∧
    (hasSegment text = true → hasStandalone text = true → hasConsolidated text = false →
      hasAnyConsolidated text = false →
      analyzeTextContent text = "Standalone (Segment)") ∧
    (hasSegment text = true → hasStandalone text = false → hasConsolidated text = true →
      analyzeTextContent text = "Consolidated (Segment)") ∧
    (hasSegment text = true → hasStandalone text = false → hasConsolidated text = false →
      analyzeTextContent text = "Segment") ∧
    (hasSegment text = false → hasStandalone text = true → hasConsolidated text = true →
      analyzeTextContent text = "Rare Case") ∧
    (hasSegment text = false → hasStandalone text = true → hasConsolidated text = false →
      hasAnyConsolidated text = true →
      analyzeTextContent text = "Standalone (probability of fake Conxxlidated term used)") ∧
    (hasSegment text = false → hasStandalone text = true → hasConsolidated text = false →
      hasAnyConsolidated text = false →
      analyzeTextContent text = "Standalone") ∧
    (hasSegment text = false → hasStandalone text = false → hasConsolidated text = true →
      analyzeTextContent text = "Consolidated") ∧
    (hasSegment text = false → hasStandalone text = false → hasConsolidated text = false →
      analyzeTextContent text = "Classification Failed") := by
  refine ⟨?_, ?_, ?_, ?_, ?_, ?_, ?_, ?_, ?_, ?_⟩ <;>
    intros <;> simp_all [analyzeTextContent]

/-- C3 witness: the fake-Consolidated branch of `c3_keyword_mapping` at a concrete text. -/
theorem c3_keyword_mapping_witness :
    (hasSegment "Standalone separate Consolidated" = false ∧
     hasStandalone "Standalone separate Consolidated" = true ∧
     hasConsolidated "Standalone separate Consolidated" = false ∧
     hasAnyConsolidated "Standalone separate Consolidated" = true) ∧
    analyzeTextContent "Standalone separate Consolidated" =
      "Standalone (probability of fake Conxxlidated term used)" :=
  ⟨⟨by decide, by decide, by decide, by decide⟩,
    (c3_keyword_mapping "Standalone separate Consolidated").2.2.2.2.2.2.1
      (by decide) (by decide) (by decide) (by decide)⟩

/-! ## C8: layout-hint resolution -/

/-- C8: an absent (empty) layout hint resolves, without error, to the default
`single_page` configuration, while a malformed hint — one `json.loads` rejects — raises
`ValueError("Invalid stock data format")` instead of returning any default; absent and
malformed hints are thus distinguished. -/
theorem c8_layout_hint_resolution (loads : String → Except Unit PyJson) (s : String)
    (hne : s ≠ "") (herr : loads s = .error ()) :
    from_stock_data "" loads = .ok ⟨"single_page", none⟩ ∧
    from_stock_data s loads = .error "Invalid stock data format" := by
  refine ⟨by simp [from_stock_data], ?_⟩
  simp [from_stock_data, hne, herr]

/-- C8 witness: a parser that rejects `"not json"` at a concrete malformed hint. -/
theorem c8_layout_hint_resolution_witness :
    ("not json" ≠ "" ∧
      (fun _ : String => (Except.error () : Except Unit PyJson)) "not json" = .error ()) ∧
    from_stock_data "" (fun _ => .error ()) = .ok ⟨"single_page", none⟩ ∧
    from_stock_data "not json" (fun _ => .error ()) = .error "Invalid stock data format" :=
  ⟨⟨by decide, rfl⟩,
    c8_layout_hint_resolution (fun _ => .error ()) "not json" (by decide) rfl⟩

/-! ## Index bookkeeping for the label-update phases -/

theorem applyLabelsFrom_getElem? (assoc : List (Nat × String)) (n : Nat)
    (ps : List (Page α)) (k : Nat) :
    (applyLabelsFrom assoc n ps)[k]? =
      (ps[k]?).map fun p =>
        match assoc.lookup (n + k) with
        | some c => { p with classification := c }
        | none => p := by
  induction ps generalizing n k with
  | nil => simp [applyLabelsFrom]
  | cons p ps ih =>
    cases k with
    | zero => simp [applyLabelsFrom]
    | succ k =>
      have hstep : applyLabelsFrom assoc n (p :: ps) =
          (match assoc.lookup n with
           | some c => { p with classification := c }
           | none => p) :: applyLabelsFrom assoc (n + 1) ps := rfl
      have hn : n + 1 + k = n + (k + 1) := by omega
      rw [hstep, List.getElem?_cons_succ, ih (n + 1) k, List.getElem?_cons_succ, hn]

theorem applyLabels_getElem? (assoc : List (Nat × String)) (ps : List (Page α)) (k : Nat) :
    (applyLabels assoc ps)[k]? =
      (ps[k]?).map fun p =>
        match assoc.lookup k with
        | some c => { p with classification := c }
        | none => p := by
  simpa using applyLabelsFrom_getElem? assoc 0 ps k

/-! ## C4: two-outlier reconciliation -/

/-- C4: in the two-outlier special case — the two sorted outlier pages sit at indices
`i1`, `i2` and neither is a `"Results Page"` — when one of the two carries a
Standalone/Consolidated-bearing classification, the other lacks such a label and has at
least 10 unique terms, the partner lacking the label is promoted to `"Results Page"`;
symmetrically in either order. -/
theorem c4_two_outlier_reconciliation (ps : List (Page α)) (i1 i2 : Nat)
    (page1 page2 : Page α)
    (h1 : ps[i1]? = some page1) (h2 : ps[i2]? = some page2)
    (hnr1 : page1.classification ≠ "Results Page")
    (hnr2 : page2.classification ≠ "Results Page") :
    ((strOccurs "Consolidated" page1.classification ∨
        strOccurs "Standalone" page1.classification) →
      ¬(strOccurs "Consolidated" page2.classification ∨
        strOccurs "Standalone" page2.classification) →
      page2.uniqueTermsCount ≥ 10 →
      (reconcileTwoOutliers ps [i1, i2])[i2]? =
        some { page2 with classification := "Results Page" }) ∧
    ((strOccurs "Consolidated" page2.classification ∨
        strOccurs "Standalone" page2.classification) →
      ¬(strOccurs "Consolidated" page1.classification ∨
        strOccurs "Standalone" page1.classification) →
      page1.uniqueTermsCount ≥ 10 →
      (reconcileTwoOutliers ps [i1, i2])[i1]? =
        some { page1 with classification := "Results Page" }) := by
  constructor
  · intro hb1 hb2 hcnt
    have hcond : (strOccurs "Consolidated" page1.classification = true ∧
        page2.uniqueTermsCount ≥ 10) ∨
        (strOccurs "Standalone" page1.classification = true ∧
        page2.uniqueTermsCount ≥ 10) := by
      rcases hb1 with h | h
      · exact Or.inl ⟨h, hcnt⟩
      · exact Or.inr ⟨h, hcnt⟩
    simp only [reconcileTwoOutliers, h1, h2]
    rw [if_neg (by simp [hnr1, hnr2]), if_pos hcond, applyLabels_getElem?, h2]
    simp [List.lookup]
  · intro hb2 hb1 hcnt
    have hcond : (strOccurs "Consolidated" page2.classification = true ∧
        page1.uniqueTermsCount ≥ 10) ∨
        (strOccurs "Standalone" page2.classification = true ∧
        page1.uniqueTermsCount ≥ 10) := by
      rcases hb2 with h | h
      · exact Or.inl ⟨h, hcnt⟩
      · exact Or.inr ⟨h, hcnt⟩
    have hnot : ¬((strOccurs "Consolidated" page1.classification = true ∧
        page2.uniqueTermsCount ≥ 10) ∨
        (strOccurs "Standalone" page1.classification = true ∧
        page2.uniqueTermsCount ≥ 10)) := by
      rintro (⟨h, -⟩ | ⟨h, -⟩)
      · exact hb1 (Or.inl h)
      · exact hb1 (Or.inr h)
    simp only [reconcileTwoOutliers, h1, h2]
    rw [if_neg (by simp [hnr1, hnr2]), if_neg hnot, if_pos hcond, applyLabels_getElem?, h1]
    simp [List.lookup]

/-! ## C5: duplicate suppression -/

theorem mem_resultPagesSorted {ps : List (Page α)} {j : Nat} {q : Page α}
    (h : (j, q) ∈ resultPagesSorted ps) :
    ps[j]? = some q ∧ q.classification = "Results Page" := by
  rw [resultPagesSorted] at h
  have h1 := (List.mem_insertionSort _).1 h
  have h2 := List.of_mem_filter h1
  have h3 := List.mem_of_mem_filter h1
  have h4 := List.mem_enum_iff_getElem?.mp h3
  refine ⟨?_, by simpa using h2⟩
  simpa [List.get?_eq_getElem?] using h4

theorem nodup_keys_resultPagesSorted (ps : List (Page α)) :
    ((resultPagesSorted ps).map Prod.fst).Nodup := by
  have hperm : List.Perm (resultPagesSorted ps)
      (ps.enum.filter fun ip => ip.2.classification == "Results Page") :=
    List.perm_insertionSort _ _
  refine ((hperm.map Prod.fst).nodup_iff).2 ?_
  have hsub : List.Sublist
      ((ps.enum.filter fun ip => ip.2.classification == "Results Page").map Prod.fst)
      (ps.enum.map Prod.fst) := (List.filter_sublist _).map Prod.fst
  have hr : (ps.enum.map Prod.fst).Nodup := by
    rw [List.enum_map_fst]; exact List.nodup_range _
  exact hr.sublist hsub

theorem lookup_in_const_assoc {β : Type} (c : String) (l : List (Nat × β)) (k : Nat) :
    (l.map fun ip => (ip.1, c)).lookup k = if k ∈ l.map Prod.fst then some c else none := by
  induction l with
  | nil => simp
  | cons ip l ih =>
    obtain ⟨i, b⟩ := ip
    by_cases hk : k = i
    · simp [List.lookup, hk]
    · have hbeq : (k == i) = false := by simp [hk]
      by_cases hm : k ∈ List.map Prod.fst l <;>
        simp [List.lookup, hbeq, ih, List.mem_cons, hk, hm]

/-- C5: duplicate suppression — when the freshly collected `"Results Page"` pages, sorted
by descending z-score, number more than one, the top page survives as `"Results Page"` if
and only if it has at least 14 unique terms and its z-score gap to the runner-up, relative
to the runner-up's absolute z-score, is at least 30%; every other collected result page is
relabelled `"Duplicate Results Page"`, and when the test fails the top page is relabelled
too. -/
theorem c5_duplicate_suppression (ps : List (Page α)) (j0 j1 : Nat) (q0 q1 : Page α)
    (rest : List (Nat × Page α))
    (hrp : resultPagesSorted ps = (j0, q0) :: (j1, q1) :: rest) :
    ((suppressDuplicates ps)[j0]?.map Page.classification = some "Results Page" ↔
      q0.uniqueTermsCount ≥ 14 ∧ ((q0.zScore - q1.zScore) / |q1.zScore|) * 100 ≥ 30) ∧
    (∀ jq ∈ (j1, q1) :: rest,
      (suppressDuplicates ps)[jq.1]?.map Page.classification =
        some "Duplicate Results Page") ∧
    (¬(q0.uniqueTermsCount ≥ 14 ∧ ((q0.zScore - q1.zScore) / |q1.zScore|) * 100 ≥ 30) →
      (suppressDuplicates ps)[j0]?.map Page.classification =
        some "Duplicate Results Page") := by
  have hmem0 : (j0, q0) ∈ resultPagesSorted ps := by
    rw [hrp]; exact List.mem_cons_self _ _
  obtain ⟨hg0, hc0⟩ := mem_resultPagesSorted hmem0
  have hnd : ((resultPagesSorted ps).map Prod.fst).Nodup := nodup_keys_resultPagesSorted ps
  rw [hrp] at hnd
  have hj0nottail : j0 ∉ ((j1, q1) :: rest).map Prod.fst := by
    rw [List.map_cons] at hnd
    exact (List.nodup_cons.mp hnd).1
  have htail : ∀ jq ∈ (j1, q1) :: rest,
      ps[jq.1]? = some jq.2 ∧ jq.2.classification = "Results Page" := by
    intro jq hjq
    exact mem_resultPagesSorted (by rw [hrp]; exact List.mem_cons_of_mem _ hjq)
  rw [suppressDuplicates, hrp]
  by_cases hA : q0.uniqueTermsCount ≥ 14 ∧
      ((q0.zScore - q1.zScore) / |q1.zScore|) * 100 ≥ 30
  · have hz1 : q1.zScore ≠ 0 := by
      intro h0
      have := hA.2
      rw [h0] at this
      simp only [abs_zero, div_zero, zero_mul, sub_zero] at this
      exact absurd this (by norm_num)
    have hcode : q0.uniqueTermsCount ≥ 14 ∧
        (((j0, q0) :: (j1, q1) :: rest).length ≥ 2 ∧ q1.zScore ≠ 0 ∧
          ((q0.zScore - q1.zScore) / |q1.zScore|) * 100 ≥ 30) :=
      ⟨hA.1, by simp, hz1, hA.2⟩
    rw [suppressDuplicatesAux, if_neg (by simpa using hcode)]
    refine ⟨?_, ?_, fun hn => absurd hA hn⟩
    · rw [applyLabels_getElem?, hg0, lookup_in_const_assoc]
      simp only [hj0nottail, if_false, Option.map_some]
      simpa [hc0] using hA
    · intro jq hjq
      obtain ⟨hgj, -⟩ := htail jq hjq
      rw [applyLabels_getElem?, hgj, lookup_in_const_assoc]
      have hmk : jq.1 ∈ ((j1, q1) :: rest).map Prod.fst :=
        List.mem_map_of_mem Prod.fst hjq
      rw [List.map_cons] at hmk
      simp [hmk]
  · have hcode : ¬(q0.uniqueTermsCount ≥ 14 ∧
        (((j0, q0) :: (j1, q1) :: rest).length ≥ 2 ∧ q1.zScore ≠ 0 ∧
          ((q0.zScore - q1.zScore) / |q1.zScore|) * 100 ≥ 30)) := by
      rintro ⟨hcnt, -, -, hgap⟩
      exact hA ⟨hcnt, hgap⟩
    rw [suppressDuplicatesAux, if_pos (by simpa using hcode)]
    have hout0 : (applyLabels
        (((j0, q0) :: (j1, q1) :: rest).map fun ip => (ip.1, "Duplicate Results Page"))
        ps)[j0]?.map Page.classification = some "Duplicate Results Page" := by
      rw [applyLabels_getElem?, hg0, lookup_in_const_assoc]
      simp
    refine ⟨?_, ?_, fun _ => hout0⟩
    · rw [hout0]
      simp only [hA, iff_false]
      intro hEq
      exact absurd (Option.some.inj hEq) (by decide)
    · intro jq hjq
      obtain ⟨hgj, -⟩ := htail jq hjq
      rw [applyLabels_getElem?, hgj, lookup_in_const_assoc]
      have hmk : jq.1 ∈ ((j0, q0) :: (j1, q1) :: rest).map Prod.fst :=
        List.mem_map_of_mem Prod.fst (List.mem_cons_of_mem _ hjq)
      rw [List.map_cons, List.map_cons] at hmk
      simp [hmk]

/-- A sample analyzed page over `ℚ`, for concrete instantiations. -/
def mkPageQ (pn : Int) (cnt : Nat) (z : ℚ) (cls : String) : Page ℚ :=
  { page_number := pn, text := "", isRelevant := false, uniqueTermsCount := cnt,
    zScore := z, isOutlier := false, classification := cls, isOcr := false }

/-- C5 witness: two result pages with counts 15/5 and z-scores 2/1 — the gap is 100% and
the top page has ≥ 14 terms, so it survives and the runner-up is relabelled. -/
theorem c5_duplicate_suppression_witness :
    resultPagesSorted [mkPageQ 1 15 2 "Results Page", mkPageQ 2 5 1 "Results Page"] =
      [(0, mkPageQ 1 15 2 "Results Page"), (1, mkPageQ 2 5 1 "Results Page")] ∧
    (suppressDuplicates
        [mkPageQ 1 15 2 "Results Page", mkPageQ 2 5 1 "Results Page"])[0]?.map
      Page.classification = some "Results Page" ∧
    (suppressDuplicates
        [mkPageQ 1 15 2 "Results Page", mkPageQ 2 5 1 "Results Page"])[1]?.map
      Page.classification = some "Duplicate Results Page" := by
  have hrp : resultPagesSorted [mkPageQ 1 15 2 "Results Page", mkPageQ 2 5 1 "Results Page"] =
      [(0, mkPageQ 1 15 2 "Results Page"), (1, mkPageQ 2 5 1 "Results Page")] := rfl
  have h := c5_duplicate_suppression
    [mkPageQ 1 15 2 "Results Page", mkPageQ 2 5 1 "Results Page"]
    0 1 (mkPageQ 1 15 2 "Results Page") (mkPageQ 2 5 1 "Results Page") [] hrp
  refine ⟨hrp, h.1.mpr ⟨by norm_num [mkPageQ], by norm_num [mkPageQ]⟩, ?_⟩
  exact h.2.1 (1, mkPageQ 2 5 1 "Results Page") (List.mem_cons_self _ _)

/-! ## C1: at most one results page after classification -/

/-- Per-position census of `"Results Page"` labels after `applyLabelsFrom assoc n`:
a covered position counts 1 exactly when its new label is `"Results Page"`, an uncovered
one exactly when its page already carried it. -/
def countUnc (assoc : List (Nat × String)) : Nat → List (Page α) → Nat
  | _, [] => 0
  | n, p :: ps =>
    (match assoc.lookup n with
     | some c => if c = "Results Page" then 1 else 0
     | none => if p.classification = "Results Page" then 1 else 0) + countUnc assoc (n + 1) ps

theorem countRP_applyLabelsFrom (assoc : List (Nat × String)) (n : Nat) (ps : List (Page α)) :
    countRP (applyLabelsFrom assoc n ps) = countUnc assoc n ps := by
  induction ps generalizing n with
  | nil => rfl
  | cons p ps ih =>
    have hstep : applyLabelsFrom assoc n (p :: ps) =
        (match assoc.lookup n with
         | some c => { p with classification := c }
         | none => p) :: applyLabelsFrom assoc (n + 1) ps := rfl
    have hu : countUnc assoc n (p :: ps) =
        (match assoc.lookup n with
         | some c => if c = "Results Page" then 1 else 0
         | none => if p.classification = "Results Page" then 1 else 0) +
          countUnc assoc (n + 1) ps := rfl
    rw [hstep, hu, countRP, List.countP_cons]
    have hcp : (applyLabelsFrom assoc (n + 1) ps).countP
        (fun p => p.classification == "Results Page") = countUnc assoc (n + 1) ps := ih (n + 1)
    rw [hcp]
    cases hl : assoc.lookup n with
    | none => by_cases hq : p.classification = "Results Page" <;> simp [hq, Nat.add_comm]
    | some c => by_cases hq : c = "Results Page" <;> simp [hq, Nat.add_comm]

theorem mem_of_lookup_eq_some {β : Type} {assoc : List (Nat × β)} {k : Nat} {c : β}
    (h : assoc.lookup k = some c) : (k, c) ∈ assoc := by
  induction assoc with
  | nil => simp [List.lookup] at h
  | cons kv rest ih =>
    obtain ⟨i, b⟩ := kv
    by_cases hk : k = i
    · subst hk
      have hsome : some b = some c := by simpa [List.lookup] using h
      have hbc := Option.some.inj hsome
      subst hbc
      exact List.mem_cons_self _ _
    · have hbeq : (k == i) = false := by simp [hk]
      have hh : rest.lookup k = some c := by simpa [List.lookup, hbeq] using h
      exact List.mem_cons_of_mem _ (ih hh)

theorem countUnc_eq_zero (assoc : List (Nat × String)) (n : Nat) (ps : List (Page α))
    (hvals : ∀ kc ∈ assoc, kc.2 ≠ "Results Page")
    (hcov : ∀ k, ∀ p : Page α, ps[k]? = some p → p.classification = "Results Page" →
      (assoc.lookup (n + k)).isSome) :
    countUnc assoc n ps = 0 := by
  induction ps generalizing n with
  | nil => rfl
  | cons p ps ih =>
    have hu : countUnc assoc n (p :: ps) =
        (match assoc.lookup n with
         | some c => if c = "Results Page" then 1 else 0
         | none => if p.classification = "Results Page" then 1 else 0) +
          countUnc assoc (n + 1) ps := rfl
    rw [hu]
    have htail : countUnc assoc (n + 1) ps = 0 := by
      refine ih (n + 1) fun k p hk hc => ?_
      have := hcov (k + 1) p (by simpa using hk) hc
      simpa [Nat.add_assoc, Nat.add_comm 1 k] using this
    rw [htail]
    cases hl : assoc.lookup n with
    | none =>
      by_cases hq : p.classification = "Results Page"
      · have := hcov 0 p (by simp) hq
        rw [Nat.add_zero, hl] at this
        simp at this
      · simp [hq]
    | some c =>
      have hc : c ≠ "Results Page" := by
        have hmem : (n, c) ∈ assoc := mem_of_lookup_eq_some hl
        exact hvals (n, c) hmem
      simp [hc]

theorem countUnc_le_one (assoc : List (Nat × String)) (t : Nat) (n : Nat) (ps : List (Page α))
    (hvals : ∀ kc ∈ assoc, kc.2 ≠ "Results Page")
    (hcov : ∀ k, ∀ p : Page α, ps[k]? = some p → p.classification = "Results Page" →
      n + k = t ∨ (assoc.lookup (n + k)).isSome) :
    countUnc assoc n ps ≤ 1 := by
  induction ps generalizing n with
  | nil => exact Nat.zero_le 1
  | cons p ps ih =>
    have hu : countUnc assoc n (p :: ps) =
        (match assoc.lookup n with
         | some c => if c = "Results Page" then 1 else 0
         | none => if p.classification = "Results Page" then 1 else 0) +
          countUnc assoc (n + 1) ps := rfl
    rw [hu]
    cases hl : assoc.lookup n with
    | some c =>
      have hc : c ≠ "Results Page" := hvals (n, c) (mem_of_lookup_eq_some hl)
      have htail : countUnc assoc (n + 1) ps ≤ 1 := by
        refine ih (n + 1) fun k p hk hcl => ?_
        have := hcov (k + 1) p (by simpa using hk) hcl
        simpa [Nat.add_assoc, Nat.add_comm 1 k] using this
      simpa [hc] using htail
    | none =>
      by_cases hq : p.classification = "Results Page"
      · have h0 := hcov 0 p (by simp) hq
        rw [Nat.add_zero, hl] at h0
        have hnt : n = t := by simpa using h0
        have htail : countUnc assoc (n + 1) ps = 0 := by
          refine countUnc_eq_zero assoc (n + 1) ps hvals fun k p hk hcl => ?_
          have := hcov (k + 1) p (by simpa using hk) hcl
          rcases this with heq | hs
          · omega
          · simpa [Nat.add_assoc, Nat.add_comm 1 k] using hs
        simp [hq, htail]
      · have htail : countUnc assoc (n + 1) ps ≤ 1 := by
          refine ih (n + 1) fun k p hk hcl => ?_
          have := hcov (k + 1) p (by simpa using hk) hcl
          simpa [Nat.add_assoc, Nat.add_comm 1 k] using this
        simpa [hq] using htail

theorem countUnc_cons (assoc : List (Nat × String)) (n : Nat) (p : Page α)
    (ps : List (Page α)) :
    countUnc assoc n (p :: ps) =
      (match assoc.lookup n with
       | some c => if c = "Results Page" then 1 else 0
       | none => if p.classification = "Results Page" then 1 else 0) +
        countUnc assoc (n + 1) ps := rfl

theorem countP_enumFrom (f : Page α → Bool) (ps : List (Page α)) (n : Nat) :
    (List.enumFrom n ps).countP (fun ip => f ip.2) = ps.countP f := by
  induction ps generalizing n with
  | nil => rfl
  | cons p ps ih => simp [List.enumFrom, List.countP_cons, ih]

theorem length_resultPagesSorted (ps : List (Page α)) :
    (resultPagesSorted ps).length = countRP ps := by
  rw [resultPagesSorted, List.length_insertionSort, ← List.countP_eq_length_filter]
  rw [countRP]
  exact countP_enumFrom (fun p => p.classification == "Results Page") ps 0

theorem rp_position_mem_keys {ps : List (Page α)} {k : Nat} {p : Page α}
    (hk : ps[k]? = some p) (hc : p.classification = "Results Page") :
    k ∈ (resultPagesSorted ps).map Prod.fst := by
  have h1 : (k, p) ∈ ps.enum := List.mem_enum_iff_getElem?.mpr (by simpa using hk)
  have h2 : (k, p) ∈ ps.enum.filter (fun ip => ip.2.classification == "Results Page") :=
    List.mem_filter.mpr ⟨h1, by simpa using hc⟩
  have h3 : (k, p) ∈ resultPagesSorted ps := by
    rw [resultPagesSorted]
    exact (List.mem_insertionSort _).2 h2
  exact List.mem_map_of_mem Prod.fst h3

theorem dup_label_values {l : List (Nat × Page α)} :
    ∀ kc ∈ l.map fun ip => (ip.1, "Duplicate Results Page"), kc.2 ≠ "Results Page" := by
  intro kc hkc
  rcases List.mem_map.1 hkc with ⟨ip, -, rfl⟩
  show "Duplicate Results Page" ≠ "Results Page"
  decide

theorem countRP_suppressDuplicates_le_one (ps : List (Page α)) :
    countRP (suppressDuplicates ps) ≤ 1 := by
  rw [suppressDuplicates]
  cases hrp : resultPagesSorted ps with
  | nil =>
    have hlen := length_resultPagesSorted ps
    rw [hrp] at hlen
    have haux : suppressDuplicatesAux ps ([] : List (Nat × Page α)) = ps := rfl
    rw [haux]
    simp at hlen
    omega
  | cons hd tl =>
    obtain ⟨j0, q0⟩ := hd
    cases tl with
    | nil =>
      have hlen := length_resultPagesSorted ps
      rw [hrp] at hlen
      have haux : suppressDuplicatesAux ps [(j0, q0)] = ps := rfl
      rw [haux]
      simp at hlen
      omega
    | cons hd2 rest =>
      obtain ⟨j1, q1⟩ := hd2
      rw [suppressDuplicatesAux]
      split
      · rw [applyLabels, countRP_applyLabelsFrom]
        have h0 : countUnc
            (((j0, q0) :: (j1, q1) :: rest).map fun ip => (ip.1, "Duplicate Results Page"))
            0 ps = 0 := by
          refine countUnc_eq_zero _ 0 ps dup_label_values fun k p hk hc => ?_
          have hkey : k ∈ (resultPagesSorted ps).map Prod.fst := rp_position_mem_keys hk hc
          rw [hrp] at hkey
          rw [Nat.zero_add, lookup_in_const_assoc, if_pos hkey]
          rfl
        rw [h0]
        omega
      · rw [applyLabels, countRP_applyLabelsFrom]
        refine countUnc_le_one _ j0 0 ps dup_label_values fun k p hk hc => ?_
        have hkey : k ∈ (resultPagesSorted ps).map Prod.fst := rp_position_mem_keys hk hc
        rw [hrp] at hkey
        have hkey2 : k = j0 ∨ k ∈ List.map Prod.fst ((j1, q1) :: rest) := by
          simpa [List.mem_cons] using hkey
        rw [Nat.zero_add, lookup_in_const_assoc]
        rcases hkey2 with rfl | htl
        · exact Or.inl rfl
        · refine Or.inr ?_
          rw [if_pos htl]
          rfl

theorem countRP_step1 (pages : List (Page α)) (zs : List α) :
    countRP (step1 pages zs) = 0 := by
  induction pages generalizing zs with
  | nil => rfl
  | cons p ps ih =>
    cases zs with
    | nil => rfl
    | cons z zs =>
      have hstep : step1 (p :: ps) (z :: zs) =
          ({ p with zScore := z, isOutlier := decide (z > ZSCORE_THRESHOLD α), classification := "Not Relevant with zScore" }) :: step1 ps zs := rfl
      rw [hstep, countRP, List.countP_cons]
      have h2 := ih zs
      rw [countRP] at h2
      rw [h2]
      simp

theorem countUnc_single_keys_lt (i : Nat) (c : String) (m : Nat) (ps : List (Page α))
    (hlt : i < m) (h0 : ∀ p ∈ ps, p.classification ≠ "Results Page") :
    countUnc [(i, c)] m ps = 0 := by
  induction ps generalizing m with
  | nil => rfl
  | cons p ps ih =>
    rw [countUnc_cons]
    have hbeq : (m == i) = false := by
      simp [Nat.ne_of_gt hlt]
    have hl : List.lookup m [(i, c)] = none := by simp [List.lookup, hbeq]
    rw [hl]
    have hcls : p.classification ≠ "Results Page" := h0 p (List.mem_cons_self _ _)
    rw [ih (m + 1) (Nat.lt_succ_of_lt hlt) fun q hq => h0 q (List.mem_cons_of_mem _ hq)]
    simp [hcls]

theorem countUnc_single_le_one (i : Nat) (c : String) (n : Nat) (ps : List (Page α))
    (h0 : ∀ p ∈ ps, p.classification ≠ "Results Page") :
    countUnc [(i, c)] n ps ≤ 1 := by
  induction ps generalizing n with
  | nil => exact Nat.zero_le 1
  | cons p ps ih =>
    rw [countUnc_cons]
    by_cases hn : n = i
    · subst hn
      have hl : List.lookup n [(n, c)] = some c := by
        simp [List.lookup]
      rw [hl]
      have htail : countUnc [(n, c)] (n + 1) ps = 0 :=
        countUnc_single_keys_lt n c (n + 1) ps (Nat.lt_succ_self n)
          fun q hq => h0 q (List.mem_cons_of_mem _ hq)
      rw [htail]
      by_cases hc : c = "Results Page" <;> simp [hc]
    · have hbeq : (n == i) = false := by simp [hn]
      have hl : List.lookup n [(i, c)] = none := by simp [List.lookup, hbeq]
      rw [hl]
      have hcls : p.classification ≠ "Results Page" := h0 p (List.mem_cons_self _ _)
      have := ih (n + 1) fun q hq => h0 q (List.mem_cons_of_mem _ hq)
      simpa [hcls] using this

/-- C1: after `classify_pages` completes — including the two-outlier reconciliation and
the duplicate suppression — at most one page of the returned page list carries the
classification `"Results Page"`, whatever the input pages, z-scores and layout
configuration. -/
theorem c1_at_most_one_results_page (pages : List (Page α)) (zscores : List α)
    (cfg : ResultTypeConfig) :
    countRP (classify_pages pages zscores cfg) ≤ 1 := by
  have hps0 : countRP (step1 pages zscores) = 0 := countRP_step1 pages zscores
  have hall : ∀ p ∈ step1 pages zscores, p.classification ≠ "Results Page" := by
    intro p hp
    have h1 : (step1 pages zscores).countP
        (fun p => p.classification == "Results Page") = 0 := hps0
    have h2 := List.countP_eq_zero.mp h1 p hp
    simpa using h2
  simp only [classify_pages]
  split
  · omega
  · split
    · split
      · rw [classifySingleLone]
        split
        · rw [applyLabels, countRP_applyLabelsFrom]
          exact countUnc_single_le_one _ _ 0 _ hall
        · rw [applyLabels, countRP_applyLabelsFrom]
          exact countUnc_single_le_one _ _ 0 _ hall
      · omega
    · exact countRP_suppressDuplicates_le_one _

/-! ## C9: page count and page-number order are preserved -/

theorem pn_applyLabelsFrom (assoc : List (Nat × String)) (n : Nat) (ps : List (Page α)) :
    (applyLabelsFrom assoc n ps).map Page.page_number = ps.map Page.page_number := by
  induction ps generalizing n with
  | nil => rfl
  | cons p ps ih =>
    have hstep : applyLabelsFrom assoc n (p :: ps) =
        (match assoc.lookup n with
         | some c => { p with classification := c }
         | none => p) :: applyLabelsFrom assoc (n + 1) ps := rfl
    cases h : assoc.lookup n <;> simp [hstep, h, ih]

theorem pn_step1 (ps : List (Page α)) (zs : List α) (h : ps.length ≤ zs.length) :
    (step1 ps zs).map Page.page_number = ps.map Page.page_number := by
  induction ps generalizing zs with
  | nil => rfl
  | cons p ps ih =>
    cases zs with
    | nil => simp at h
    | cons z zs =>
      have hstep : step1 (p :: ps) (z :: zs) =
          ({ p with zScore := z, isOutlier := decide (z > ZSCORE_THRESHOLD α), classification := "Not Relevant with zScore" }) :: step1 ps zs := rfl
      rw [hstep, List.map_cons, List.map_cons, ih zs (by simpa using h)]

theorem pn_classifySingleLone (ps : List (Page α)) (i : Nat) (p : Page α) :
    (classifySingleLone ps i p).map Page.page_number = ps.map Page.page_number := by
  rw [classifySingleLone]
  split <;> exact pn_applyLabelsFrom _ 0 _

theorem pn_singlePageGap (ps : List (Page α)) (hz : List (Nat × Page α)) :
    (singlePageGap ps hz).map Page.page_number = ps.map Page.page_number := by
  simp only [singlePageGap]
  repeat' split
  all_goals first
    | rfl
    | exact pn_applyLabelsFrom _ 0 _

theorem pn_multiPagePhase (cfg : ResultTypeConfig) (ps : List (Page α))
    (hz : List (Nat × Page α)) :
    (multiPagePhase cfg ps hz).map Page.page_number = ps.map Page.page_number :=
  pn_applyLabelsFrom _ 0 _

theorem pn_branchPhase (cfg : ResultTypeConfig) (ps : List (Page α))
    (hz : List (Nat × Page α)) :
    (branchPhase cfg ps hz).map Page.page_number = ps.map Page.page_number := by
  simp only [branchPhase]
  repeat' split
  all_goals first
    | rfl
    | exact pn_singlePageGap _ _
    | exact pn_multiPagePhase _ _ _

theorem pn_reconcileTwoOutliers (ps : List (Page α)) (idxs : List Nat) :
    (reconcileTwoOutliers ps idxs).map Page.page_number = ps.map Page.page_number := by
  simp only [reconcileTwoOutliers]
  repeat' split
  all_goals first
    | rfl
    | exact pn_applyLabelsFrom _ 0 _

theorem pn_suppressDuplicatesAux (ps : List (Page α)) (rp : List (Nat × Page α)) :
    (suppressDuplicatesAux ps rp).map Page.page_number = ps.map Page.page_number := by
  cases rp with
  | nil => rfl
  | cons hd tl =>
    obtain ⟨i0, p0⟩ := hd
    cases tl with
    | nil => rfl
    | cons hd2 rest =>
      obtain ⟨i1, p1⟩ := hd2
      rw [suppressDuplicatesAux]
      split <;> exact pn_applyLabelsFrom _ 0 _

theorem pn_suppressDuplicates (ps : List (Page α)) :
    (suppressDuplicates ps).map Page.page_number = ps.map Page.page_number :=
  pn_suppressDuplicatesAux ps (resultPagesSorted ps)

theorem pn_classify_pages (ps : List (Page α)) (zs : List α) (cfg : ResultTypeConfig)
    (h : ps.length ≤ zs.length) :
    (classify_pages ps zs cfg).map Page.page_number = ps.map Page.page_number := by
  have hbase := pn_step1 ps zs h
  simp only [classify_pages]
  split
  · exact hbase
  · split
    · split
      · exact (pn_classifySingleLone _ _ _).trans hbase
      · exact hbase
    · exact (pn_suppressDuplicates _).trans
        ((pn_reconcileTwoOutliers _ _).trans ((pn_branchPhase _ _ _).trans hbase))

theorem length_z_scores (l : List ℝ) : (calculate_statistics l).z_scores.length = l.length := by
  simp only [calculate_statistics]
  split
  · rename_i h
    simp [h]
  · simp

/-- C9: the engine's output page list has the same length as the input page list, and the
`page_number` values appear in the output in the input's order — statistics,
classification and the gate never reassign or reorder page identity. -/
theorem c9_page_identity_preserved (pages : List InputPage) (cfg : ResultTypeConfig) :
    (analyze_document pages cfg).pages.map Page.page_number =
      pages.map InputPage.page_number ∧
    (analyze_document pages cfg).pages.length = pages.length := by
  have hmap0 : (pages.map analyze_page).map Page.page_number =
      pages.map InputPage.page_number := by
    rw [List.map_map]
    rfl
  have hfirst : (analyze_document pages cfg).pages.map Page.page_number =
      pages.map InputPage.page_number := by
    simp only [analyze_document]
    split
    · exact hmap0
    · have hcl : (classify_pages (pages.map analyze_page)
          (calculate_statistics (pages.map fun p => (p.uniqueTermsCount : ℝ))).z_scores
          cfg).map Page.page_number = pages.map InputPage.page_number := by
        refine (pn_classify_pages _ _ _ ?_).trans hmap0
        rw [length_z_scores]
        simp
      split
      · exact hcl
      · split
        · exact hcl
        · exact hcl
  refine ⟨hfirst, ?_⟩
  have := congrArg List.length hfirst
  simpa using this

/-! ## C6 and C10: the re-extraction gate -/

theorem countRP_map_analyze_page (pages : List InputPage) :
    countRP (pages.map analyze_page) = 0 := by
  rw [countRP]
  refine List.countP_eq_zero.mpr ?_
  intro p hp
  rcases List.mem_map.1 hp with ⟨q, -, rfl⟩
  simp [analyze_page]

/-- The pre-classification gate: with every page below the minimum-terms threshold,
`analyze_document` stops before computing statistics. -/
theorem analyze_document_early_gate (pages : List InputPage) (cfg : ResultTypeConfig)
    (h : ∀ p ∈ pages, p.uniqueTermsCount < MIN_FINANCIAL_TERMS) :
    analyze_document pages cfg =
      ⟨true, "PDF needs to be processed through OCR API to get data",
        pages.map analyze_page⟩ := by
  have hcond : ¬ ((pages.map analyze_page).any
      (fun p => decide (p.uniqueTermsCount ≥ MIN_FINANCIAL_TERMS)) = true) := by
    intro hany
    rcases List.any_eq_true.1 hany with ⟨r, hr, hge⟩
    rcases List.mem_map.1 hr with ⟨q, hq, rfl⟩
    have hlt := h q hq
    simp [analyze_page] at hge
    omega
  simp only [analyze_document]
  rw [if_pos hcond]

/-- C6: when no page's unique-term count meets the minimum-terms threshold, the engine
stops before classification, returns `needs_ocr = true` with the re-extraction message,
and no page of the output is labelled `"Results Page"`. -/
theorem c6_no_relevant_pages_gate (pages : List InputPage) (cfg : ResultTypeConfig)
    (h : ∀ p ∈ pages, p.uniqueTermsCount < MIN_FINANCIAL_TERMS) :
    (analyze_document pages cfg).needs_ocr = true ∧
    (analyze_document pages cfg).message =
      "PDF needs to be processed through OCR API to get data" ∧
    countRP (analyze_document pages cfg).pages = 0 := by
  rw [analyze_document_early_gate pages cfg h]
  exact ⟨rfl, rfl, countRP_map_analyze_page pages⟩

/-- C6 witness: a one-page document with 3 matched terms. -/
theorem c6_no_relevant_pages_gate_witness :
    (∀ p ∈ [(⟨1, "", false, 3⟩ : InputPage)],
      p.uniqueTermsCount < MIN_FINANCIAL_TERMS) ∧
    ((analyze_document [⟨1, "", false, 3⟩] ⟨"single_page", none⟩).needs_ocr = true ∧
     (analyze_document [⟨1, "", false, 3⟩] ⟨"single_page", none⟩).message =
       "PDF needs to be processed through OCR API to get data" ∧
     countRP (analyze_document [⟨1, "", false, 3⟩] ⟨"single_page", none⟩).pages = 0) :=
  ⟨by decide, c6_no_relevant_pages_gate [⟨1, "", false, 3⟩] ⟨"single_page", none⟩ (by decide)⟩

theorem stats_single (x : ℝ) : calculate_statistics [x] = ⟨x, 0, [0]⟩ := by
  have hne : ([x] : List ℝ) ≠ [] := by simp
  simp only [calculate_statistics]
  rw [if_neg hne]
  have hlen : ¬(1 < ([x] : List ℝ).length) := by simp
  rw [if_neg hlen]
  have hmean : pyMean [x] = x := by
    simp [pyMean]
  rw [hmean]
  simp

/-- C10: a document of exactly one page always yields `needs_ocr = true` and no
`"Results Page"`, however many financial terms the page holds: with one count the
standard deviation is defined as 0, the page's z-score is 0, it is never an outlier, and
no results page can be assigned. -/
theorem c10_single_page_document (p : InputPage) (cfg : ResultTypeConfig) :
    (analyze_document [p] cfg).needs_ocr = true ∧
    countRP (analyze_document [p] cfg).pages = 0 := by
  by_cases h : p.uniqueTermsCount ≥ MIN_FINANCIAL_TERMS
  · have hdec : decide ((0:ℝ) > ZSCORE_THRESHOLD ℝ) = false :=
      decide_eq_false (by norm_num [ZSCORE_THRESHOLD])
    have hstep : step1 [analyze_page p] [(0:ℝ)] =
        [{ analyze_page p with zScore := 0, isOutlier := false, classification := "Not Relevant with zScore" }] := by
      simp [step1, hdec]
    have hso : sortedOutliers (step1 [analyze_page p] [(0:ℝ)]) = [] := by
      rw [hstep]
      simp [sortedOutliers]
    have hcl : classify_pages [analyze_page p] [(0:ℝ)] cfg =
        step1 [analyze_page p] [(0:ℝ)] := by
      simp only [classify_pages, hso]
      simp
    have hfilter : (step1 [analyze_page p] [(0:ℝ)]).filter
        (fun r => r.classification == "Results Page") = [] := by
      rw [hstep]
      simp
    simp only [analyze_document, List.map_cons, List.map_nil]
    have hany : ([analyze_page p].any
        (fun r => decide (r.uniqueTermsCount ≥ MIN_FINANCIAL_TERMS))) = true := by
      simp [analyze_page, h]
    rw [if_neg (by simp [hany])]
    rw [stats_single ((p.uniqueTermsCount : ℝ))]
    rw [show (⟨(p.uniqueTermsCount : ℝ), 0, [0]⟩ : DocumentStats).z_scores = [(0:ℝ)] from rfl]
    rw [hcl, hfilter]
    constructor
    · simp
    · simp [countRP_step1]
  · have hlt : ∀ q ∈ [p], q.uniqueTermsCount < MIN_FINANCIAL_TERMS := by
      intro q hq
      rcases List.mem_singleton.1 hq with rfl
      omega
    rw [analyze_document_early_gate [p] cfg hlt]
    exact ⟨rfl, countRP_map_analyze_page [p]⟩

/-! ## C7: statistics are total and well formed -/

theorem sampleVariance_nonneg (l : List ℝ) (h : 2 ≤ l.length) : 0 ≤ sampleVariance l := by
  rw [sampleVariance]
  apply div_nonneg
  · apply List.sum_nonneg
    intro x hx
    rcases List.mem_map.1 hx with ⟨c, -, rfl⟩
    exact sq_nonneg _
  · have h2 : (2:ℝ) ≤ (l.length : ℝ) := by exact_mod_cast h
    linarith

/-- C7: `calculate_statistics` is total on every (possibly empty) count list and never
divides by zero: the mean is the population mean, the standard deviation is the sample
standard deviation — 0 whenever fewer than two counts exist — and nonnegative, and each
z-score is `(count - mean) / std_dev` when `std_dev > 0` and 0 otherwise (in particular
all z-scores are 0 whenever the standard deviation is 0). -/
theorem c7_statistics_safe (l : List ℝ) :
    (calculate_statistics l).mean = l.sum / l.length ∧
    (l.length < 2 → (calculate_statistics l).std_dev = 0) ∧
    (2 ≤ l.length → (calculate_statistics l).std_dev ^ 2 = sampleVariance l) ∧
    0 ≤ (calculate_statistics l).std_dev ∧
    (calculate_statistics l).z_scores =
      (l.map fun count =>
        if 0 < (calculate_statistics l).std_dev then
          (count - (calculate_statistics l).mean) / (calculate_statistics l).std_dev
        else 0) ∧
    ((calculate_statistics l).std_dev = 0 →
      ∀ z ∈ (calculate_statistics l).z_scores, z = 0) := by
  by_cases hnil : l = []
  · subst hnil
    refine ⟨by simp [calculate_statistics], by simp [calculate_statistics], ?_, ?_, ?_, ?_⟩
    · intro h
      simp at h
    · simp [calculate_statistics]
    · simp [calculate_statistics]
    · intro h0 z hz
      simp [calculate_statistics] at hz
  · have hca : calculate_statistics l =
        ⟨pyMean l,
         if 1 < l.length then Real.sqrt (sampleVariance l) else 0,
         l.map fun count =>
           if (if 1 < l.length then Real.sqrt (sampleVariance l) else 0) > 0 then
             (count - pyMean l) / (if 1 < l.length then Real.sqrt (sampleVariance l) else 0)
           else 0⟩ := by
      rw [calculate_statistics, if_neg hnil]
    refine ⟨?_, ?_, ?_, ?_, ?_, ?_⟩
    · rw [hca]
      rfl
    · intro h
      rw [hca]
      exact if_neg (by omega)
    · intro h
      rw [hca]
      dsimp only
      rw [if_pos (by omega)]
      exact Real.sq_sqrt (sampleVariance_nonneg l h)
    · rw [hca]
      dsimp only
      split
      · exact Real.sqrt_nonneg _
      · exact le_refl 0
    · rw [hca]
    · rw [hca]
      intro h0 z hz
      dsimp only at h0 hz
      rcases List.mem_map.1 hz with ⟨c, -, rfl⟩
      rw [h0]
      simp

/-- C7 witness: at counts `[1, 2]` the squared standard deviation equals the sample
variance. -/
theorem c7_statistics_safe_witness :
    2 ≤ ([1, 2] : List ℝ).length ∧
    (calculate_statistics [1, 2]).std_dev ^ 2 = sampleVariance [1, 2] :=
  ⟨by norm_num, (c7_statistics_safe [1, 2]).2.2.1 (by norm_num)⟩

/-- C4 witness: a Consolidated-labelled top outlier promotes an unlabelled partner with
11 unique terms. -/
theorem c4_two_outlier_reconciliation_witness :
    ((strOccurs "Consolidated" (mkPageQ 1 12 2 "Consolidated").classification ∨
        strOccurs "Standalone" (mkPageQ 1 12 2 "Consolidated").classification) ∧
      ¬(strOccurs "Consolidated" (mkPageQ 2 11 1 "Classification Failed").classification ∨
        strOccurs "Standalone" (mkPageQ 2 11 1 "Classification Failed").classification) ∧
      (mkPageQ 2 11 1 "Classification Failed").uniqueTermsCount ≥ 10) ∧
    (reconcileTwoOutliers
        [mkPageQ 1 12 2 "Consolidated", mkPageQ 2 11 1 "Classification Failed"]
        [0, 1])[1]? =
      some { mkPageQ 2 11 1 "Classification Failed" with classification := "Results Page" } := by
  refine ⟨⟨by decide, by decide, by decide⟩, ?_⟩
  exact (c4_two_outlier_reconciliation
      [mkPageQ 1 12 2 "Consolidated", mkPageQ 2 11 1 "Classification Failed"]
      0 1 (mkPageQ 1 12 2 "Consolidated") (mkPageQ 2 11 1 "Classification Failed")
      rfl rfl (by decide) (by decide)).1 (by decide) (by decide) (by decide)

/-! ## C2: the `[2, 3, 15, 4, 3]` single-page scenario -/

/-- The five-page document of the scenario: unique-term counts `[2, 3, 15, 4, 3]`. -/
def c2Pages : List InputPage :=
  [⟨1, "", false, 2⟩, ⟨2, "", false, 3⟩, ⟨3, "", false, 15⟩, ⟨4, "", false, 4⟩,
   ⟨5, "", false, 3⟩]

/-- The scenario's unique-term counts as reals. -/
def c2Counts : List ℝ := [2, 3, 15, 4, 3]

theorem c2_variance : sampleVariance c2Counts = 293 / 10 := by
  have hm : pyMean c2Counts = 27 / 5 := by
    simp [pyMean, c2Counts]
    norm_num
  rw [sampleVariance, hm]
  simp [c2Counts]
  norm_num

theorem c2_stats_eval : calculate_statistics c2Counts =
    ⟨27 / 5, Real.sqrt (293 / 10),
      c2Counts.map fun c => (c - 27 / 5) / Real.sqrt (293 / 10)⟩ := by
  have hne : c2Counts ≠ [] := by simp [c2Counts]
  have hm : pyMean c2Counts = 27 / 5 := by
    simp [pyMean, c2Counts]
    norm_num
  have hlen : 1 < c2Counts.length := by simp [c2Counts]
  rw [calculate_statistics, if_neg hne]
  dsimp only
  rw [if_pos hlen, c2_variance, hm]
  have hfun : (fun count : ℝ =>
      if Real.sqrt (293 / 10) > 0 then (count - 27 / 5) / Real.sqrt (293 / 10) else 0) =
      fun count : ℝ => (count - 27 / 5) / Real.sqrt (293 / 10) :=
    funext fun c => if_pos (by positivity)
  rw [hfun]

theorem c2_sd_bounds :
    541 / 100 < Real.sqrt (293 / 10) ∧ Real.sqrt (293 / 10) < 542 / 100 := by
  constructor
  · rw [show (541 / 100 : ℝ) = 541 / 100 from rfl]
    rw [Real.lt_sqrt (by norm_num)]
    norm_num
  · rw [Real.sqrt_lt' (by norm_num)]
    norm_num

theorem c2_z3_bounds :
    1 < (15 - 27 / 5 : ℝ) / Real.sqrt (293 / 10) ∧
    177 / 100 < (15 - 27 / 5 : ℝ) / Real.sqrt (293 / 10) ∧
    (15 - 27 / 5 : ℝ) / Real.sqrt (293 / 10) < 178 / 100 := by
  have hpos : 0 < Real.sqrt (293 / 10) := by positivity
  have hb := c2_sd_bounds
  refine ⟨?_, ?_, ?_⟩
  · rw [one_lt_div hpos]
    calc Real.sqrt (293 / 10) < 542 / 100 := hb.2
      _ ≤ 15 - 27 / 5 := by norm_num
  · rw [lt_div_iff hpos]
    calc (177 / 100 : ℝ) * Real.sqrt (293 / 10) < 177 / 100 * (542 / 100) := by
          exact mul_lt_mul_of_pos_left hb.2 (by norm_num)
      _ ≤ 15 - 27 / 5 := by norm_num
  · rw [div_lt_iff hpos]
    calc (15 - 27 / 5 : ℝ) = 48 / 5 := by norm_num
      _ < 178 / 100 * (541 / 100) := by norm_num
      _ ≤ 178 / 100 * Real.sqrt (293 / 10) := by
          exact mul_le_mul_of_nonneg_left (le_of_lt hb.1) (by norm_num)

/-- C2 counterexample: on counts `[2, 3, 15, 4, 3]` the sample standard deviation is not
approximately 5.06 (it exceeds 5.31 by a wide margin) and page 3's z-score is not
approximately 1.89 (it is below 1.78): the claim's numeric values are wrong. -/
theorem c2_counterexample :
    ¬(|(calculate_statistics c2Counts).std_dev - 506 / 100| < 1 / 4) ∧
    ¬(|(calculate_statistics c2Counts).z_scores.getD 2 0 - 189 / 100| < 1 / 10) := by
  have hb := c2_sd_bounds
  have hz := c2_z3_bounds
  constructor
  · rw [c2_stats_eval]
    dsimp only
    rw [abs_sub_lt_iff]
    rintro ⟨h1, -⟩
    linarith [hb.1]
  · rw [c2_stats_eval]
    dsimp only
    rw [show (c2Counts.map fun c => (c - 27 / 5) / Real.sqrt (293 / 10)).getD 2 0 =
        (15 - 27 / 5 : ℝ) / Real.sqrt (293 / 10) by simp [c2Counts]]
    rw [abs_sub_lt_iff]
    rintro ⟨-, h2⟩
    linarith [hz.2.2]

theorem c2_classify_eval (v : ℝ)
    (hv3 : decide ((15 - 27 / 5 : ℝ) / v > ZSCORE_THRESHOLD ℝ) = true)
    (hv1 : decide ((2 - 27 / 5 : ℝ) / v > ZSCORE_THRESHOLD ℝ) = false)
    (hv2 : decide ((3 - 27 / 5 : ℝ) / v > ZSCORE_THRESHOLD ℝ) = false)
    (hv4 : decide ((4 - 27 / 5 : ℝ) / v > ZSCORE_THRESHOLD ℝ) = false) :
    classify_pages (List.map analyze_page c2Pages)
      [(2 - 27 / 5) / v, (3 - 27 / 5) / v, (15 - 27 / 5) / v, (4 - 27 / 5) / v,
       (3 - 27 / 5) / v]
      ⟨"single_page", none⟩ =
      [{ analyze_page ⟨1, "", false, 2⟩ with zScore := (2 - 27 / 5) / v, isOutlier := false, classification := "Not Relevant with zScore" },
       { analyze_page ⟨2, "", false, 3⟩ with zScore := (3 - 27 / 5) / v, isOutlier := false, classification := "Not Relevant with zScore" },
       { analyze_page ⟨3, "", false, 15⟩ with zScore := (15 - 27 / 5) / v, isOutlier := true, classification := "Results Page" },
       { analyze_page ⟨4, "", false, 4⟩ with zScore := (4 - 27 / 5) / v, isOutlier := false, classification := "Not Relevant with zScore" },
       { analyze_page ⟨5, "", false, 3⟩ with zScore := (3 - 27 / 5) / v, isOutlier := false, classification := "Not Relevant with zScore" }] := by
  have hcnt : ∀ x : InputPage, (analyze_page x).uniqueTermsCount = x.uniqueTermsCount :=
    fun _ => rfl
  simp [classify_pages, step1, sortedOutliers, classifySingleLone, applyLabels,
    applyLabelsFrom, c2Pages, hv1, hv2, hv3, hv4, List.insertionSort, List.orderedInsert,
    List.lookup, MIN_FINANCIAL_TERMS, hcnt]

theorem c2_pipeline :
    (analyze_document c2Pages ⟨"single_page", none⟩).pages.map Page.classification =
      ["Not Relevant with zScore", "Not Relevant with zScore", "Results Page",
       "Not Relevant with zScore", "Not Relevant with zScore"] ∧
    (analyze_document c2Pages ⟨"single_page", none⟩).needs_ocr = false := by
  have hpos : 0 < Real.sqrt (293 / 10) := by positivity
  have hd3 : decide ((15 - 27 / 5 : ℝ) / Real.sqrt (293 / 10) > ZSCORE_THRESHOLD ℝ) = true :=
    decide_eq_true (by simpa [ZSCORE_THRESHOLD, gt_iff_lt] using c2_z3_bounds.1)
  have hneg : ∀ c : ℝ, c - 27 / 5 < 0 →
      decide ((c - 27 / 5) / Real.sqrt (293 / 10) > ZSCORE_THRESHOLD ℝ) = false := by
    intro c hc
    apply decide_eq_false
    rw [ZSCORE_THRESHOLD]
    intro hgt
    have hneg2 : (c - 27 / 5) / Real.sqrt (293 / 10) < 0 := div_neg_of_neg_of_pos hc hpos
    linarith
  have hd1 := hneg 2 (by norm_num)
  have hd2 := hneg 3 (by norm_num)
  have hd4 := hneg 4 (by norm_num)
  have hcounts : List.map (fun p => ((p.uniqueTermsCount : ℝ))) c2Pages = c2Counts := by
    simp [c2Pages, c2Counts]
  have hanyT : ((List.map analyze_page c2Pages).any
      fun r => decide (r.uniqueTermsCount ≥ MIN_FINANCIAL_TERMS)) = true := by
    simp [c2Pages, analyze_page, MIN_FINANCIAL_TERMS]
  have hzlist : (calculate_statistics c2Counts).z_scores =
      [(2 - 27 / 5) / Real.sqrt (293 / 10), (3 - 27 / 5) / Real.sqrt (293 / 10),
       (15 - 27 / 5) / Real.sqrt (293 / 10), (4 - 27 / 5) / Real.sqrt (293 / 10),
       (3 - 27 / 5) / Real.sqrt (293 / 10)] := by
    rw [c2_stats_eval]
    simp [c2Counts]
  have hclassify := c2_classify_eval (Real.sqrt (293 / 10)) hd3 hd1 hd2 hd4
  have hcnt : ∀ x : InputPage, (analyze_page x).uniqueTermsCount = x.uniqueTermsCount :=
    fun _ => rfl
  simp only [analyze_document]
  rw [if_neg (by simp [hanyT])]
  rw [hcounts, hzlist]
  rw [hclassify]
  constructor
  · simp [hcnt]
  · simp [hcnt]

/-- C2 (amended): for the SinglePage-layout document whose pages have unique-term counts
`[2, 3, 15, 4, 3]` with z-score threshold 1.0 — the mean is 5.4; the sample standard
deviation is `√29.3 ≈ 5.41` (not ≈ 5.06 as claimed), so page 3's z-score is ≈ 1.77 (not
≈ 1.89) and page 3 is the sole outlier; since its count 15 is at least the minimum-terms
threshold 7, page 3 is classified `"Results Page"` and the engine returns
`needs_reextraction = false`. -/
theorem c2_single_page_scenario :
    (calculate_statistics c2Counts).mean = 27 / 5 ∧
    (calculate_statistics c2Counts).std_dev ^ 2 = 293 / 10 ∧
    541 / 100 < (calculate_statistics c2Counts).std_dev ∧
    (calculate_statistics c2Counts).std_dev < 542 / 100 ∧
    1 < (calculate_statistics c2Counts).z_scores.getD 2 0 ∧
    177 / 100 < (calculate_statistics c2Counts).z_scores.getD 2 0 ∧
    (calculate_statistics c2Counts).z_scores.getD 2 0 < 178 / 100 ∧
    (∀ i : Nat, i ≠ 2 → (calculate_statistics c2Counts).z_scores.getD i 0 < 1) ∧
    (analyze_document c2Pages ⟨"single_page", none⟩).pages.map Page.classification =
      ["Not Relevant with zScore", "Not Relevant with zScore", "Results Page",
       "Not Relevant with zScore", "Not Relevant with zScore"] ∧
    (analyze_document c2Pages ⟨"single_page", none⟩).needs_ocr = false := by
  have hpos : 0 < Real.sqrt (293 / 10) := by positivity
  have hsd : (calculate_statistics c2Counts).std_dev = Real.sqrt (293 / 10) := by
    rw [c2_stats_eval]
  have hzlist : (calculate_statistics c2Counts).z_scores =
      [(2 - 27 / 5) / Real.sqrt (293 / 10), (3 - 27 / 5) / Real.sqrt (293 / 10),
       (15 - 27 / 5) / Real.sqrt (293 / 10), (4 - 27 / 5) / Real.sqrt (293 / 10),
       (3 - 27 / 5) / Real.sqrt (293 / 10)] := by
    rw [c2_stats_eval]
    simp [c2Counts]
  have hz3 : (calculate_statistics c2Counts).z_scores.getD 2 0 =
      (15 - 27 / 5) / Real.sqrt (293 / 10) := by
    rw [hzlist]
    rfl
  have hmean : (calculate_statistics c2Counts).mean = 27 / 5 := by
    rw [c2_stats_eval]
  refine ⟨hmean, ?_, ?_, ?_, ?_, ?_, ?_, ?_, c2_pipeline.1, c2_pipeline.2⟩
  · rw [hsd]
    exact Real.sq_sqrt (by norm_num)
  · rw [hsd]
    exact c2_sd_bounds.1
  · rw [hsd]
    exact c2_sd_bounds.2
  · rw [hz3]
    exact c2_z3_bounds.1
  · rw [hz3]
    exact c2_z3_bounds.2.1
  · rw [hz3]
    exact c2_z3_bounds.2.2
  · have hneg1 : ∀ c : ℝ, c - 27 / 5 < 0 →
        (c - 27 / 5) / Real.sqrt (293 / 10) < 1 := fun c hc =>
      lt_trans (div_neg_of_neg_of_pos hc hpos) one_pos
    intro i hi
    rw [hzlist]
    rcases i with _ | _ | _ | _ | _ | i
    · simpa using hneg1 2 (by norm_num)
    · simpa using hneg1 3 (by norm_num)
    · exact absurd rfl hi
    · simpa using hneg1 4 (by norm_num)
    · simpa using hneg1 3 (by norm_num)
    · norm_num [List.getD]

/-- C2 witness: the sole-outlier clause of the amended scenario instantiated at page
index 0. -/
theorem c2_single_page_scenario_witness :
    (0 : Nat) ≠ 2 ∧ (calculate_statistics c2Counts).z_scores.getD 0 0 < 1 :=
  ⟨by decide, c2_single_page_scenario.2.2.2.2.2.2.2.1 0 (by decide)⟩
